import Mathlib

/-
Verification of the KeySplitRoute replica-splitting routing policy
(mcrouter/routes/KeySplitRoute.h).

The embedding models a request as a key (a byte string, one character per
byte) together with an abstract payload `info` standing for every other
request field.  Routing is modelled as a pure function producing a
`Dispatch`: the synchronous delivery (whose reply the caller observes,
tagged with the assigned replica index) and the list of fire-and-forget
asynchronous deliveries, each tagged with its replica index.
-/

namespace KeySplit

/-- An operation kind, mirroring the compile-time overload selection of
`KeySplitRoute::route`: the three read/lease overloads, set, delete, and
the fallback overload for every other request type. -/
inductive OpKind where
  | get
  | leaseGet
  | leaseSet
  | set
  | delete
  | other
deriving DecidableEq, Repr

/-- A request: a key plus an abstract `info` field standing for all the
other fields of the concrete request type (value, flags, exptime, ...). -/
structure Request (α : Type) where
  key : String
  info : α
deriving DecidableEq, Repr

/-- The immutable route configuration built by the constructor:
`replicas_` and `allSync_` (the child handle is left abstract). -/
structure KeySplitRoute where
  replicas : Nat
  allSync : Bool
deriving DecidableEq, Repr

/-- `kMinReplicaCount` from KeySplitRoute.h. -/
def kMinReplicaCount : Nat := 2

/-- `kMaxReplicaCount` from KeySplitRoute.h. -/
def kMaxReplicaCount : Nat := 1000

/-- `kMemcacheReplicaSeparator` from KeySplitRoute.h. -/
def kMemcacheReplicaSeparator : String := "::"

/-- `kMaxMcKeyLength` from KeySplitRoute.h. -/
def kMaxMcKeyLength : Nat := 255

/-- Modelled from the spec: `detail::numDigitsBase10` lives in
mcrouter/lib/McKey.h, which is not part of the sources; the spec calls it
`digitCount` and uses it as the decimal digit count of its argument.  We
take the length of the decimal rendering. -/
def numDigitsBase10 (n : Nat) : Nat :=
  (Nat.repr n).length

/-- `kExtraKeySpaceNeeded` from KeySplitRoute.h: separator size plus the
digit count of the largest possible replica index. -/
def kExtraKeySpaceNeeded : Nat :=
  kMemcacheReplicaSeparator.length + numDigitsBase10 (kMaxReplicaCount - 1)

/-- `canAugmentRequest`: the key length plus the worst-case suffix must
stay within the maximum memcache key length. -/
def canAugmentRequest {α : Type} (req : Request α) : Bool :=
  req.key.length + kExtraKeySpaceNeeded ≤ kMaxMcKeyLength

/-- `shouldAugmentRequest`: the first replica routes with no key change. -/
def shouldAugmentRequest (replicaId : Nat) : Bool :=
  replicaId > 0

/-- `copyAndAugment`: copy the request and append separator and decimal
replica index to the key. -/
def copyAndAugment {α : Type} (originalReq : Request α) (replicaId : Nat) :
    Request α :=
  { originalReq with
    key := originalReq.key ++ kMemcacheReplicaSeparator ++ Nat.repr replicaId }

/-- `getReplicaId`: the process host identity modulo the replica count. -/
def getReplicaId (hostid replicas : Nat) : Nat :=
  hostid % replicas

/-- The request actually handed to the child by `routeOne` for a given
replica index. -/
def routeOne {α : Type} (req : Request α) (replicaId : Nat) : Request α :=
  if shouldAugmentRequest replicaId then copyAndAugment req replicaId else req

/-- The observable effect of one `route` call: the synchronous delivery
(tagged with its replica index; its reply is what the caller gets back)
and the asynchronous fire-and-forget deliveries (replica index and the
owned request copy; their results are discarded). -/
structure Dispatch (α : Type) where
  syncReplica : Nat
  sync : Request α
  async : List (Nat × Request α)
deriving DecidableEq, Repr

/-- `routeAll`: spawn a fire-and-forget task for every replica except the
assigned one (copying and augmenting the request per replica), then serve
the assigned replica via `routeOne` and return its reply. -/
def routeAll {α : Type} (cfg : KeySplitRoute) (req : Request α)
    (replicaId : Nat) : Dispatch α :=
  { syncReplica := replicaId
    sync := routeOne req replicaId
    async :=
      ((List.range cfg.replicas).filter (fun id => id != replicaId)).map
        (fun id =>
          (id, if shouldAugmentRequest id then copyAndAugment req id else req)) }

/-- A dispatch with no fan-out: the request is delivered synchronously to
the child once and nothing else happens. -/
def single {α : Type} (replicaId : Nat) (req : Request α) : Dispatch α :=
  { syncReplica := replicaId, sync := req, async := [] }

/-- The four `route` overloads of KeySplitRoute, keyed by operation kind:
get/lease-get/lease-set route to one replica after the eligibility check;
set fans out to all replicas only when `allSync_` holds; delete always
fans out; every other request type falls back to single-replica routing
with no eligibility check. -/
def route {α : Type} (cfg : KeySplitRoute) (hostid : Nat) (op : OpKind)
    (req : Request α) : Dispatch α :=
  match op with
  | .get | .leaseGet | .leaseSet =>
    if ¬ canAugmentRequest req then
      single (getReplicaId hostid cfg.replicas) req
    else
      single (getReplicaId hostid cfg.replicas)
        (routeOne req (getReplicaId hostid cfg.replicas))
  | .set =>
    if ¬ canAugmentRequest req then
      single (getReplicaId hostid cfg.replicas) req
    else if cfg.allSync then
      routeAll cfg req (getReplicaId hostid cfg.replicas)
    else
      single (getReplicaId hostid cfg.replicas)
        (routeOne req (getReplicaId hostid cfg.replicas))
  | .delete =>
    if ¬ canAugmentRequest req then
      single (getReplicaId hostid cfg.replicas) req
    else
      routeAll cfg req (getReplicaId hostid cfg.replicas)
  | .other =>
    single (getReplicaId hostid cfg.replicas)
      (routeOne req (getReplicaId hostid cfg.replicas))

/-- All requests a `route` call delivers to the child, each tagged with
its replica index: the synchronous one followed by the fan-out copies. -/
def deliveries {α : Type} (d : Dispatch α) : List (Nat × Request α) :=
  (d.syncReplica, d.sync) :: d.async

/-- `traverse`: the introspection path reports a single effective request,
augmenting for the assigned replica exactly when it is nonzero; there is
no eligibility check on this path. -/
def traverse {α : Type} (cfg : KeySplitRoute) (hostid : Nat)
    (req : Request α) : List (Request α) :=
  if shouldAugmentRequest (getReplicaId hostid cfg.replicas) then
    [copyAndAugment req (getReplicaId hostid cfg.replicas)]
  else
    [req]

/-- The constructor's preconditions, modelled as construction-time
rejection: a present child and a replica count within
[kMinReplicaCount, kMaxReplicaCount] are required for a route object to
exist. -/
def mkKeySplitRoute (childPresent : Bool) (replicas : Nat) (allSync : Bool) :
    Option KeySplitRoute :=
  if childPresent ∧ kMinReplicaCount ≤ replicas ∧ replicas ≤ kMaxReplicaCount
  then some { replicas := replicas, allSync := allSync }
  else none

end KeySplit

set_option maxRecDepth 100000

namespace KeySplit

/-- A key of 251 bytes: one byte over the augmentation budget of 250. -/
def bigKey : String := String.mk (List.replicate 251 'a')

/-- The oversized request used as concrete counterexample input. -/
def bigReq : Request Nat := { key := bigKey, info := 0 }

theorem deliveries_single {α : Type} (rid : Nat) (req : Request α) :
    deliveries (single rid req) = [(rid, req)] := rfl

theorem key_of_routeOne {α : Type} (req : Request α) (r : Nat) :
    (routeOne req r).key =
      if r = 0 then req.key
      else req.key ++ kMemcacheReplicaSeparator ++ Nat.repr r := by
  rcases Nat.eq_zero_or_pos r with rfl | hr
  · simp [routeOne, shouldAugmentRequest]
  · simp [routeOne, shouldAugmentRequest, copyAndAugment, hr, Nat.pos_iff_ne_zero.mp hr]

theorem routeAll_async_mem_iff {α : Type} (cfg : KeySplitRoute) (req : Request α)
    (rid : Nat) (p : Nat × Request α) :
    p ∈ (routeAll cfg req rid).async ↔
      p.1 < cfg.replicas ∧ p.1 ≠ rid ∧ p.2 = routeOne req p.1 := by
  obtain ⟨a, r⟩ := p
  simp only [routeAll, List.mem_map, List.mem_filter, List.mem_range, routeOne]
  constructor
  · rintro ⟨id, ⟨hid, hne⟩, heq⟩
    obtain ⟨rfl, rfl⟩ := Prod.mk.injEq .. ▸ heq
    exact ⟨hid, by simpa using hne, rfl⟩
  · rintro ⟨h1, h2, rfl⟩
    exact ⟨a, ⟨h1, by simpa using h2⟩, rfl⟩

theorem length_filter_bne_range (n r : Nat) (h : r < n) :
    ((List.range n).filter (fun id => id != r)).length = n - 1 := by
  induction n with
  | zero => exact absurd h (Nat.not_lt_zero r)
  | succ n ih =>
    rw [List.range_succ, List.filter_append, List.length_append]
    by_cases hr : r = n
    · subst hr
      have hall : (List.range r).filter (fun id => id != r) = List.range r :=
        List.filter_eq_self.mpr (fun a ha => by
          simp only [List.mem_range] at ha
          simp [Nat.ne_of_lt ha])
      simp [hall]
    · have hrn : r < n := by omega
      have hnr : (n != r) = true := by
        simpa using fun h => hr h.symm
      have h1 : (List.filter (fun id => id != r) [n]).length = 1 := by
        simp [List.filter, hnr]
      rw [ih hrn, h1]
      omega

theorem routeAll_async_length {α : Type} (cfg : KeySplitRoute) (req : Request α)
    (rid : Nat) (h : rid < cfg.replicas) :
    (routeAll cfg req rid).async.length = cfg.replicas - 1 := by
  simp only [routeAll, List.length_map]
  exact length_filter_bne_range cfg.replicas rid h

end KeySplit

namespace KeySplit

/-- C1: for every request whose key passes the eligibility check, `route`
dispatches exactly per the policy table: get, lease-get, lease-set and any
other kind go to the single assigned replica only; set fans out to all
replicas exactly when `allSync` is enabled; delete fans out to all
replicas for either value of `allSync`. -/
theorem route_policy_table {α : Type} (cfg : KeySplitRoute) (hostid : Nat)
    (req : Request α) (h : canAugmentRequest req = true) :
    (∀ op, (op = OpKind.get ∨ op = OpKind.leaseGet ∨ op = OpKind.leaseSet ∨
            op = OpKind.other) →
      route cfg hostid op req =
        single (getReplicaId hostid cfg.replicas)
          (routeOne req (getReplicaId hostid cfg.replicas))) ∧
    (route cfg hostid OpKind.set req =
      if cfg.allSync then routeAll cfg req (getReplicaId hostid cfg.replicas)
      else
        single (getReplicaId hostid cfg.replicas)
          (routeOne req (getReplicaId hostid cfg.replicas))) ∧
    (∀ b : Bool,
      route { cfg with allSync := b } hostid OpKind.delete req =
        routeAll { cfg with allSync := b } req
          (getReplicaId hostid cfg.replicas)) := by
  refine ⟨?_, ?_, ?_⟩
  · rintro op (rfl | rfl | rfl | rfl) <;> simp [route, h]
  · simp [route, h]
  · intro b
    simp [route, h]

/-- Witness for `route_policy_table` at a concrete eligible request. -/
theorem route_policy_table_witness :
    canAugmentRequest (Request.mk "foo" (0 : Nat)) = true ∧
    route (KeySplitRoute.mk 4 false) 2 OpKind.get (Request.mk "foo" (0 : Nat)) =
      single 2 (routeOne (Request.mk "foo" (0 : Nat)) 2) :=
  ⟨by decide,
   (route_policy_table (KeySplitRoute.mk 4 false) 2 (Request.mk "foo" (0 : Nat))
      (by decide)).1 OpKind.get (Or.inl rfl)⟩

/-- C2: for an eligible key, the key forwarded for replica r is the
original key when r = 0 and the original key followed by the separator
and the decimal rendering of r when r > 0 — on both the synchronous
(`routeOne`) and the fan-out (`routeAll`) paths. -/
theorem forwarded_key_shape {α : Type} (req : Request α)
    (h : canAugmentRequest req = true) :
    (∀ r : Nat, (routeOne req r).key =
      if r = 0 then req.key
      else req.key ++ kMemcacheReplicaSeparator ++ Nat.repr r) ∧
    (∀ (cfg : KeySplitRoute) (rid : Nat) (p : Nat × Request α),
      p ∈ (routeAll cfg req rid).async →
      p.2.key =
        if p.1 = 0 then req.key
        else req.key ++ kMemcacheReplicaSeparator ++ Nat.repr p.1) := by
  refine ⟨fun r => key_of_routeOne req r, ?_⟩
  intro cfg rid p hp
  rw [((routeAll_async_mem_iff cfg req rid p).mp hp).2.2]
  exact key_of_routeOne req p.1

/-- Witness for `forwarded_key_shape` at a concrete eligible request. -/
theorem forwarded_key_shape_witness :
    canAugmentRequest (Request.mk "foo" (0 : Nat)) = true ∧
    (routeOne (Request.mk "foo" (0 : Nat)) 2).key =
      if 2 = 0 then "foo" else "foo" ++ kMemcacheReplicaSeparator ++ Nat.repr 2 :=
  ⟨by decide,
   (forwarded_key_shape (Request.mk "foo" (0 : Nat)) (by decide)).1 2⟩

/-- C5: the eligibility check accepts exactly the keys whose length plus
the separator length plus the digit count of the largest possible replica
index fits in the maximum key length — equivalently, keys of at most 250
bytes.  It takes no replica count or replica index, so it cannot depend
on either. -/
theorem canAugment_iff {α : Type} (req : Request α) :
    (canAugmentRequest req = true ↔
      req.key.length + kMemcacheReplicaSeparator.length +
        numDigitsBase10 (kMaxReplicaCount - 1) ≤ kMaxMcKeyLength) ∧
    (canAugmentRequest req = true ↔ req.key.length ≤ 250) := by
  have h5 : kExtraKeySpaceNeeded = 5 := by decide
  have h255 : kMaxMcKeyLength = 255 := rfl
  constructor
  · simp only [canAugmentRequest, kExtraKeySpaceNeeded, decide_eq_true_eq]
    omega
  · simp only [canAugmentRequest, h5, h255, decide_eq_true_eq]
    omega

/-- C6: replica assignment is the host identity modulo the replica count,
always lands in [0, replicaCount), and is a pure function of its inputs. -/
theorem getReplicaId_spec (hostIdentity replicaCount : Nat)
    (h : 1 ≤ replicaCount) :
    getReplicaId hostIdentity replicaCount = hostIdentity % replicaCount ∧
    getReplicaId hostIdentity replicaCount < replicaCount :=
  ⟨rfl, Nat.mod_lt hostIdentity h⟩

/-- Witness for `getReplicaId_spec` at concrete inputs. -/
theorem getReplicaId_spec_witness :
    getReplicaId 7 3 = 7 % 3 ∧ getReplicaId 7 3 < 3 :=
  getReplicaId_spec 7 3 (by decide)

end KeySplit

namespace KeySplit

/-- Counterexample to C3: an oversized key (251 bytes, over the 250-byte
budget) routed with an operation kind outside the five named ones is
still augmented, because the fallback `route` overload never performs the
eligibility check: with assigned replica 1 the child receives an
augmented key, not the original. -/
theorem oversized_fallback_counterexample :
    canAugmentRequest bigReq = false ∧
    (route (KeySplitRoute.mk 2 false) 1 OpKind.other bigReq).sync.key ≠
      bigReq.key := by
  constructor
  · decide
  · decide

/-- C3 as amended: when a key exceeds the budget, routing forwards the
unmodified original key to every replica contacted for get, lease-get,
lease-set, set and delete requests; for any other request kind the
eligibility check is skipped and the single delivered request is the
(possibly augmented) `routeOne` result for the assigned replica. -/
theorem oversized_key_routing {α : Type} (cfg : KeySplitRoute) (hostid : Nat)
    (req : Request α) (h : canAugmentRequest req = false) :
    (∀ op, op ≠ OpKind.other →
      ∀ p ∈ deliveries (route cfg hostid op req), p.2.key = req.key) ∧
    (deliveries (route cfg hostid OpKind.other req) =
      [(getReplicaId hostid cfg.replicas,
        routeOne req (getReplicaId hostid cfg.replicas))]) := by
  constructor
  · rintro op hop p hp
    cases op <;> simp [route, h, deliveries, single] at hp hop ⊢ <;>
      simp [hp]
  · rfl

/-- Witness for `oversized_key_routing`: a concrete 251-byte key is
forwarded untouched by a get. -/
theorem oversized_key_routing_witness :
    canAugmentRequest bigReq = false ∧
    (route (KeySplitRoute.mk 2 false) 1 OpKind.get bigReq).sync.key =
      bigReq.key :=
  ⟨by decide,
   (oversized_key_routing (KeySplitRoute.mk 2 false) 1 bigReq (by decide)).1
     OpKind.get (by decide) (1, bigReq) (by decide)⟩

/-- Every request a `route` call delivers is either the original request
or the `routeOne` result for the replica index it is tagged with. -/
theorem route_delivery_cases {α : Type} (cfg : KeySplitRoute) (hostid : Nat)
    (op : OpKind) (req : Request α) :
    ∀ p ∈ deliveries (route cfg hostid op req),
      p.2 = req ∨ p.2 = routeOne req p.1 := by
  intro p hp
  have hall : ∀ rid, p ∈ deliveries (routeAll cfg req rid) →
      p.2 = req ∨ p.2 = routeOne req p.1 := by
    intro rid hmem
    rcases List.mem_cons.mp hmem with h | h
    · right
      rw [h]
      rfl
    · right
      exact ((routeAll_async_mem_iff cfg req rid p).mp h).2.2
  cases op <;> simp only [route] at hp <;> (repeat' split at hp) <;>
    first
      | exact hall _ hp
      | (simp only [deliveries_single, List.mem_singleton] at hp
         subst hp
         exact Or.inl rfl)
      | (simp only [deliveries_single, List.mem_singleton] at hp
         subst hp
         exact Or.inr rfl)

/-- C4: `routeAll` with assigned replica rid returns the synchronous
`routeOne` delivery for rid as the caller-visible reply, and its fan-out
list contains exactly one independently built copy per replica index
other than rid, augmented per that index. -/
theorem routeAll_fanout {α : Type} (cfg : KeySplitRoute) (hostid : Nat)
    (req : Request α) (rid : Nat) (helig : canAugmentRequest req = true)
    (hone : 1 ≤ cfg.replicas)
    (hrid : rid = getReplicaId hostid cfg.replicas) :
    (routeAll cfg req rid).syncReplica = rid ∧
    (routeAll cfg req rid).sync = routeOne req rid ∧
    (routeAll cfg req rid).async.length = cfg.replicas - 1 ∧
    (∀ id, id < cfg.replicas → id ≠ rid →
      (id, routeOne req id) ∈ (routeAll cfg req rid).async) ∧
    (∀ p ∈ (routeAll cfg req rid).async,
      p.1 < cfg.replicas ∧ p.1 ≠ rid ∧ p.2 = routeOne req p.1) := by
  have hlt : rid < cfg.replicas := by
    rw [hrid]
    exact Nat.mod_lt hostid hone
  refine ⟨rfl, rfl, routeAll_async_length cfg req rid hlt, ?_, ?_⟩
  · intro id hid hne
    exact (routeAll_async_mem_iff cfg req rid (id, routeOne req id)).mpr
      ⟨hid, hne, rfl⟩
  · intro p hp
    exact (routeAll_async_mem_iff cfg req rid p).mp hp

/-- Witness for `routeAll_fanout` at a concrete configuration. -/
theorem routeAll_fanout_witness :
    (routeAll (KeySplitRoute.mk 3 true) (Request.mk "bar" (0 : Nat)) 0).sync =
      routeOne (Request.mk "bar" (0 : Nat)) 0 ∧
    (routeAll (KeySplitRoute.mk 3 true) (Request.mk "bar" (0 : Nat)) 0).async.length = 2 :=
  ⟨(routeAll_fanout (KeySplitRoute.mk 3 true) 0 (Request.mk "bar" (0 : Nat)) 0
      (by decide) (by decide) rfl).2.1,
   (routeAll_fanout (KeySplitRoute.mk 3 true) 0 (Request.mk "bar" (0 : Nat)) 0
      (by decide) (by decide) rfl).2.2.1⟩

/-- C7: on every routing path — any operation kind, eligible or oversized
key — and on the raw `routeOne`/`routeAll` paths, a request delivered for
replica index 0 carries the original, unmodified key. -/
theorem replica_zero_key_unchanged {α : Type} (cfg : KeySplitRoute)
    (hostid : Nat) (op : OpKind) (req : Request α) :
    (∀ p ∈ deliveries (route cfg hostid op req), p.1 = 0 → p.2.key = req.key) ∧
    routeOne req 0 = req ∧
    (∀ rid, ∀ p ∈ (routeAll cfg req rid).async, p.1 = 0 → p.2.key = req.key) := by
  have hzero : routeOne req 0 = req := by simp [routeOne, shouldAugmentRequest]
  refine ⟨?_, hzero, ?_⟩
  · intro p hp h0
    rcases route_delivery_cases cfg hostid op req p hp with h | h
    · rw [h]
    · rw [h, h0, hzero]
  · intro rid p hp h0
    rw [((routeAll_async_mem_iff cfg req rid p).mp hp).2.2, h0, hzero]

/-- Witness for `replica_zero_key_unchanged`: the fan-out copy for
replica 0 of a delete keeps the key "baz". -/
theorem replica_zero_key_unchanged_witness :
    (0, Request.mk "baz" (0 : Nat)) ∈
      deliveries (route (KeySplitRoute.mk 2 false) 1 OpKind.delete
        (Request.mk "baz" (0 : Nat))) ∧
    (Request.mk "baz" (0 : Nat)).key = "baz" :=
  ⟨by decide,
   (replica_zero_key_unchanged (KeySplitRoute.mk 2 false) 1 OpKind.delete
      (Request.mk "baz" (0 : Nat))).1 (0, Request.mk "baz" (0 : Nat))
      (by decide) rfl⟩

end KeySplit

namespace KeySplit

/-- Counterexample to C8: `traverse` skips the eligibility check that the
real routing decision performs, so on an oversized 251-byte key with
assigned replica 1 it reports an augmented effective request while a get
actually routes the original request to the assigned replica. -/
theorem traverse_eligibility_counterexample :
    (traverse (KeySplitRoute.mk 2 false) 1 bigReq).length = 1 ∧
    (route (KeySplitRoute.mk 2 false) 1 OpKind.get bigReq).sync = bigReq ∧
    (traverse (KeySplitRoute.mk 2 false) 1 bigReq).head? ≠
      some ((route (KeySplitRoute.mk 2 false) 1 OpKind.get bigReq).sync) := by
  refine ⟨rfl, by decide, ?_⟩
  decide

/-- C8 as amended: `traverse` always yields exactly one effective
request — the `routeOne` image of the request for the assigned replica,
built with the augmentation rule but without the eligibility check; on
every key that passes the eligibility check this coincides with the
synchronous request of the real routing decision for every operation
kind. -/
theorem traverse_single_target {α : Type} (cfg : KeySplitRoute)
    (hostid : Nat) (req : Request α) :
    traverse cfg hostid req =
      [routeOne req (getReplicaId hostid cfg.replicas)] ∧
    (canAugmentRequest req = true → ∀ op,
      (route cfg hostid op req).sync =
        routeOne req (getReplicaId hostid cfg.replicas)) := by
  constructor
  · by_cases hs : shouldAugmentRequest (getReplicaId hostid cfg.replicas) = true <;>
      simp [traverse, routeOne, hs]
  · intro h op
    by_cases hb : cfg.allSync <;>
      cases op <;> simp [route, h, hb, single, routeAll]

/-- Witness for `traverse_single_target` at a concrete eligible request. -/
theorem traverse_single_target_witness :
    traverse (KeySplitRoute.mk 4 false) 2 (Request.mk "foo" (0 : Nat)) =
      [routeOne (Request.mk "foo" (0 : Nat)) 2] ∧
    (route (KeySplitRoute.mk 4 false) 2 OpKind.delete
        (Request.mk "foo" (0 : Nat))).sync =
      routeOne (Request.mk "foo" (0 : Nat)) 2 :=
  ⟨(traverse_single_target (KeySplitRoute.mk 4 false) 2
      (Request.mk "foo" (0 : Nat))).1,
   (traverse_single_target (KeySplitRoute.mk 4 false) 2
      (Request.mk "foo" (0 : Nat))).2 (by decide) OpKind.delete⟩

/-- C9: construction succeeds exactly when the child is present and the
replica count lies in [kMinReplicaCount, kMaxReplicaCount]; counts 1 and
1001 are rejected, and every constructed route object satisfies the
bounds. -/
theorem mkKeySplitRoute_spec (c : Bool) (r : Nat) (a : Bool) :
    ((mkKeySplitRoute c r a).isSome ↔
      c = true ∧ kMinReplicaCount ≤ r ∧ r ≤ kMaxReplicaCount) ∧
    mkKeySplitRoute c 1 a = none ∧
    mkKeySplitRoute c 1001 a = none ∧
    (∀ cfg, mkKeySplitRoute c r a = some cfg →
      kMinReplicaCount ≤ cfg.replicas ∧ cfg.replicas ≤ kMaxReplicaCount) := by
  refine ⟨?_, ?_, ?_, ?_⟩
  · simp only [mkKeySplitRoute]
    split <;> simp_all
  · simp [mkKeySplitRoute, kMinReplicaCount]
  · simp [mkKeySplitRoute, kMaxReplicaCount]
  · intro cfg hcfg
    simp only [mkKeySplitRoute] at hcfg
    split at hcfg
    · cases hcfg
      simp_all
    · cases hcfg

/-- Witness for `mkKeySplitRoute_spec` at concrete arguments. -/
theorem mkKeySplitRoute_spec_witness :
    mkKeySplitRoute true 2 false = some (KeySplitRoute.mk 2 false) ∧
    kMinReplicaCount ≤ (KeySplitRoute.mk 2 false).replicas ∧
    (KeySplitRoute.mk 2 false).replicas ≤ kMaxReplicaCount :=
  ⟨by decide,
   (mkKeySplitRoute_spec true 2 false).2.2.2 (KeySplitRoute.mk 2 false)
     (by decide)⟩

/-- C10: augmentation rewrites only the key — the abstract `info` field
standing for every other request field is preserved on every delivered
copy on every routing and traversal path (the caller's request itself is
untouched, the model being pure and the source copying before
rewriting). -/
theorem route_frame_only_key {α : Type} (cfg : KeySplitRoute)
    (hostid : Nat) (op : OpKind) (req : Request α) :
    (∀ r : Nat, (copyAndAugment req r).info = req.info) ∧
    (∀ p ∈ deliveries (route cfg hostid op req), p.2.info = req.info) ∧
    (∀ q ∈ traverse cfg hostid req, q.info = req.info) := by
  have hone : ∀ r : Nat, (routeOne req r).info = req.info := by
    intro r
    rcases Nat.eq_zero_or_pos r with rfl | hr
    · simp [routeOne, shouldAugmentRequest]
    · simp [routeOne, shouldAugmentRequest, copyAndAugment, hr]
  refine ⟨fun r => rfl, ?_, ?_⟩
  · intro p hp
    rcases route_delivery_cases cfg hostid op req p hp with h | h
    · rw [h]
    · rw [h, hone]
  · intro q hq
    simp only [traverse] at hq
    split at hq <;> rw [List.mem_singleton] at hq <;> rw [hq]
    rfl

/-- Witness for `route_frame_only_key` at a concrete request. -/
theorem route_frame_only_key_witness :
    (2, Request.mk "bar::2" (7 : Nat)) ∈
      deliveries (route (KeySplitRoute.mk 3 true) 0 OpKind.set
        (Request.mk "bar" (7 : Nat))) ∧
    (Request.mk "bar::2" (7 : Nat)).info = (Request.mk "bar" (7 : Nat)).info :=
  ⟨by decide,
   (route_frame_only_key (KeySplitRoute.mk 3 true) 0 OpKind.set
      (Request.mk "bar" (7 : Nat))).2.1 (2, Request.mk "bar::2" (7 : Nat))
      (by decide)⟩

end KeySplit
